import Mathlib

/-!
Shallow embedding of the monitoring-and-reporting engine of
all_in_one_isp_monitor.py, together with proofs settling the frozen claims
about it.

Modelling conventions:
* Python strings that are only compared, sorted or tested for suffixes
  (file names) are embedded as lists of Unicode code points (List Nat);
  Python string comparison is code-point lexicographic, embedded as pyLt.
* Python datetime values are embedded as a record of calendar fields plus a
  microsecond field; strftime formatting drops the microseconds exactly as
  the source format string does.
* Machine floats are embedded as exact rationals; the only float operation
  the source performs on latencies is parsing a digits-and-dots string and
  comparing against the integer threshold 100, where rational and binary
  float semantics agree on every value the ping regex can produce.
* The bare except blocks of the source are embedded by making the effectful
  outcome (subprocess output, HTTP response, sheet contents) an explicit
  inductive argument with an error case, so the error path of the code is an
  ordinary branch of a total function.
-/

/-- Code points of a string, the units Python string comparison works on. -/
def codes (s : String) : List Nat := s.data.map Char.toNat

/-- Python string comparison (lexicographic on code points), restricted to
the code-point lists; sorted() and the < operator both use it. -/
def pyLt : List Nat → List Nat → Bool
  | _, [] => false
  | [], _ :: _ => true
  | a :: as, b :: bs => if a = b then pyLt as bs else decide (a < b)

theorem pyLt_irrefl : ∀ l, pyLt l l = false
  | [] => rfl
  | _ :: as => by simp [pyLt, pyLt_irrefl as]

theorem pyLt_asymm : ∀ a b, pyLt a b = true → pyLt b a = false
  | _, [], h => by simp [pyLt] at h
  | [], _ :: _, _ => rfl
  | a :: as, b :: bs, h => by
    by_cases hab : a = b
    · subst hab
      simp only [pyLt, if_pos rfl] at h ⊢
      exact pyLt_asymm as bs h
    · simp only [pyLt, if_neg hab] at h
      simp only [pyLt, if_neg (Ne.symm hab)]
      simp only [decide_eq_true_eq] at h
      simp only [decide_eq_false_iff_not]
      omega

theorem pyLt_trans : ∀ a b c, pyLt a b = true → pyLt b c = true → pyLt a c = true
  | _, _, [], _, h2 => by simp [pyLt] at h2
  | [], _, _ :: _, _, _ => rfl
  | _ :: _, [], _ :: _, h1, _ => by simp [pyLt] at h1
  | a :: as, b :: bs, c :: cs, h1, h2 => by
    by_cases hab : a = b <;> by_cases hbc : b = c
    · subst hab; subst hbc
      simp only [pyLt, if_pos rfl] at h1 h2 ⊢
      exact pyLt_trans as bs cs h1 h2
    · subst hab
      simp only [pyLt, if_neg hbc] at h2 ⊢
      exact h2
    · subst hbc
      simp only [pyLt, if_neg hab] at h1 ⊢
      exact h1
    · simp only [pyLt, if_neg hab, decide_eq_true_eq] at h1
      simp only [pyLt, if_neg hbc, decide_eq_true_eq] at h2
      have hac : a ≠ c := by omega
      simp only [pyLt, if_neg hac, decide_eq_true_eq]
      omega

theorem pyLt_eq_of_not : ∀ a b, pyLt a b = false → pyLt b a = false → a = b
  | [], [], _, _ => rfl
  | [], _ :: _, h1, _ => by cases h1
  | _ :: _, [], _, h2 => by cases h2
  | a :: as, b :: bs, h1, h2 => by
    by_cases hab : a = b
    · subst hab
      simp only [pyLt, if_pos rfl] at h1 h2
      rw [pyLt_eq_of_not as bs h1 h2]
    · simp only [pyLt, if_neg hab, decide_eq_false_iff_not] at h1
      simp only [pyLt, if_neg (Ne.symm hab), decide_eq_false_iff_not] at h2
      omega

theorem pyLt_append_left : ∀ p a b, pyLt (p ++ a) (p ++ b) = pyLt a b
  | [], _, _ => rfl
  | _ :: p, a, b => by simp [pyLt, pyLt_append_left p a b]

theorem pyLt_block : ∀ u v a b, u.length = v.length →
    pyLt (u ++ a) (v ++ b) = if u = v then pyLt a b else pyLt u v
  | [], [], a, b, _ => by simp
  | [], _ :: _, _, _, h => by simp at h
  | _ :: _, [], _, _, h => by simp at h
  | x :: u, y :: v, a, b, h => by
    simp only [List.length_cons, Nat.succ.injEq] at h
    by_cases hxy : x = y
    · subst hxy
      simp [pyLt, pyLt_block u v a b h]
    · simp only [List.cons_append, pyLt, if_neg hxy, List.cons.injEq]
      rw [if_neg (by intro hc; exact hxy hc.1)]

/-! ## Timestamps and the strftime-derived report identity -/

/-- Embedding of a datetime value at the precision the program touches. -/
structure Timestamp where
  year : Nat
  month : Nat
  day : Nat
  hour : Nat
  minute : Nat
  second : Nat
  micro : Nat
deriving DecidableEq, Repr

/-- Field ranges a datetime.now() value always satisfies (the year range is
the four-digit range every realistic wall clock reading lies in). -/
def validTs (t : Timestamp) : Prop :=
  1000 ≤ t.year ∧ t.year ≤ 9999 ∧ 1 ≤ t.month ∧ t.month ≤ 12 ∧
  1 ≤ t.day ∧ t.day ≤ 31 ∧ t.hour ≤ 23 ∧ t.minute ≤ 59 ∧
  t.second ≤ 59 ∧ t.micro ≤ 999999

instance (t : Timestamp) : Decidable (validTs t) := by
  unfold validTs; infer_instance

/-- Chronological strict order at whole-second precision, the precision the
strftime format of the report file name retains. -/
def chronoLtSec (a b : Timestamp) : Bool :=
  if a.year ≠ b.year then decide (a.year < b.year)
  else if a.month ≠ b.month then decide (a.month < b.month)
  else if a.day ≠ b.day then decide (a.day < b.day)
  else if a.hour ≠ b.hour then decide (a.hour < b.hour)
  else if a.minute ≠ b.minute then decide (a.minute < b.minute)
  else decide (a.second < b.second)

/-- Chronological non-strict order at whole-second precision. -/
def chronoLeSec (a b : Timestamp) : Bool := !(chronoLtSec b a)

/-- Two timestamps agreeing on every field the file-name format keeps. -/
def sameSecond (a b : Timestamp) : Prop :=
  a.year = b.year ∧ a.month = b.month ∧ a.day = b.day ∧
  a.hour = b.hour ∧ a.minute = b.minute ∧ a.second = b.second

instance (a b : Timestamp) : Decidable (sameSecond a b) := by
  unfold sameSecond; infer_instance

/-- Two zero-padded decimal digits, as code points (strftime %m %d %H %M %S). -/
def pad2 (n : Nat) : List Nat := [48 + n / 10, 48 + n % 10]

/-- Four decimal digits, as code points (strftime %Y on a four-digit year). -/
def pad4 (n : Nat) : List Nat := pad2 (n / 100) ++ pad2 (n % 100)

/-- File base name built at source line 102:
ping_report_YYYYMMDD_HHMMSS.xlsx. The microsecond field of the timestamp
does not appear in it. -/
def baseName (t : Timestamp) : List Nat :=
  codes "ping_report_" ++ pad4 t.year ++ pad2 t.month ++ pad2 t.day ++
    codes "_" ++ pad2 t.hour ++ pad2 t.minute ++ pad2 t.second ++ codes ".xlsx"

/-- Full path written by wb.save at source line 103: os.path.join of the
report folder with the base name. The write goes directly to this final
name; no temporary name is involved. -/
def report_filename (t : Timestamp) : List Nat :=
  codes "ping_reports/" ++ baseName t

theorem pad2_length (n : Nat) : (pad2 n).length = 2 := rfl

theorem pad2_lt (a b : Nat) (ha : a < 100) (hb : b < 100) :
    pyLt (pad2 a) (pad2 b) = decide (a < b) := by
  simp only [pad2, pyLt]
  split_ifs with h1 h2
  · symm; rw [decide_eq_false_iff_not]; omega
  · rw [decide_eq_decide]; omega
  · rw [decide_eq_decide]; omega

theorem pad2_inj (a b : Nat) (ha : a < 100) (hb : b < 100) :
    pad2 a = pad2 b ↔ a = b := by
  simp only [pad2, List.cons.injEq, and_true]
  omega

theorem pad4_lt (a b : Nat) (ha : a < 10000) (hb : b < 10000) :
    pyLt (pad4 a) (pad4 b) = decide (a < b) := by
  simp only [pad4]
  rw [pyLt_block _ _ _ _ (by simp [pad2_length])]
  rw [if_congr (pad2_inj _ _ (by omega) (by omega)) rfl rfl]
  split_ifs with h
  · rw [pad2_lt _ _ (by omega) (by omega), decide_eq_decide]
    omega
  · rw [pad2_lt _ _ (by omega) (by omega), decide_eq_decide]
    omega

theorem pad4_inj (a b : Nat) (ha : a < 10000) (hb : b < 10000) :
    pad4 a = pad4 b ↔ a = b := by
  constructor
  · intro h
    obtain ⟨h1, h2⟩ := List.append_inj h (by simp [pad2_length])
    rw [pad2_inj _ _ (by omega) (by omega)] at h1
    rw [pad2_inj _ _ (by omega) (by omega)] at h2
    omega
  · intro h; rw [h]

theorem pad2_step (a b : Nat) (ha : a < 100) (hb : b < 100) (r s : List Nat) :
    pyLt (pad2 a ++ r) (pad2 b ++ s) = if a = b then pyLt r s else decide (a < b) := by
  rw [pyLt_block _ _ _ _ (by simp [pad2_length])]
  rw [if_congr (pad2_inj a b ha hb) rfl rfl]
  split_ifs with h
  · rfl
  · exact pad2_lt a b ha hb

theorem pad4_step (a b : Nat) (ha : a < 10000) (hb : b < 10000) (r s : List Nat) :
    pyLt (pad4 a ++ r) (pad4 b ++ s) = if a = b then pyLt r s else decide (a < b) := by
  rw [pyLt_block _ _ _ _ (by simp [pad4, pad2_length])]
  rw [if_congr (pad4_inj a b ha hb) rfl rfl]
  split_ifs with h
  · rfl
  · exact pad4_lt a b ha hb

/-- Comparing two report base names lexicographically is the same as
comparing the underlying timestamps chronologically at second precision. -/
theorem baseName_lt (t1 t2 : Timestamp) (h1 : validTs t1) (h2 : validTs t2) :
    pyLt (baseName t1) (baseName t2) = chronoLtSec t1 t2 := by
  obtain ⟨a1, a2, a3, a4, a5, a6, a7, a8, a9, _⟩ := h1
  obtain ⟨b1, b2, b3, b4, b5, b6, b7, b8, b9, _⟩ := h2
  simp only [baseName, List.append_assoc]
  rw [pyLt_append_left, pad4_step _ _ (by omega) (by omega)]
  by_cases hy : t1.year = t2.year
  · rw [if_pos hy, pad2_step _ _ (by omega) (by omega)]
    by_cases hmo : t1.month = t2.month
    · rw [if_pos hmo, pad2_step _ _ (by omega) (by omega)]
      by_cases hd : t1.day = t2.day
      · rw [if_pos hd, pyLt_append_left, pad2_step _ _ (by omega) (by omega)]
        by_cases hh : t1.hour = t2.hour
        · rw [if_pos hh, pad2_step _ _ (by omega) (by omega)]
          by_cases hmi : t1.minute = t2.minute
          · rw [if_pos hmi, pad2_step _ _ (by omega) (by omega)]
            by_cases hs : t1.second = t2.second
            · rw [if_pos hs, pyLt_irrefl]
              simp [chronoLtSec, hy, hmo, hd, hh, hmi, hs]
            · rw [if_neg hs]
              simp [chronoLtSec, hy, hmo, hd, hh, hmi]
          · rw [if_neg hmi]; simp [chronoLtSec, hy, hmo, hd, hh, hmi]
        · rw [if_neg hh]; simp [chronoLtSec, hy, hmo, hd, hh]
      · rw [if_neg hd]; simp [chronoLtSec, hy, hmo, hd]
    · rw [if_neg hmo]; simp [chronoLtSec, hy, hmo]
  · rw [if_neg hy]; simp [chronoLtSec, hy]

/-- Single number encoding the six second-precision fields, used to phrase
chronological comparisons arithmetically. -/
def chronoKey (t : Timestamp) : Nat :=
  ((((t.year * 100 + t.month) * 100 + t.day) * 100 + t.hour) * 100 + t.minute)
    * 100 + t.second

theorem chronoLtSec_eq_key (a b : Timestamp) (ha : validTs a) (hb : validTs b) :
    chronoLtSec a b = decide (chronoKey a < chronoKey b) := by
  obtain ⟨a1, a2, a3, a4, a5, a6, a7, a8, a9, _⟩ := ha
  obtain ⟨b1, b2, b3, b4, b5, b6, b7, b8, b9, _⟩ := hb
  unfold chronoLtSec chronoKey
  split_ifs <;> rw [decide_eq_decide] <;> constructor <;> intro <;> omega

theorem sameSecond_iff_key (a b : Timestamp) (ha : validTs a) (hb : validTs b) :
    sameSecond a b ↔ chronoKey a = chronoKey b := by
  obtain ⟨a1, a2, a3, a4, a5, a6, a7, a8, a9, _⟩ := ha
  obtain ⟨b1, b2, b3, b4, b5, b6, b7, b8, b9, _⟩ := hb
  unfold sameSecond chronoKey
  constructor <;> intro <;> omega

theorem baseName_congr (t1 t2 : Timestamp) (h : sameSecond t1 t2) :
    baseName t1 = baseName t2 := by
  obtain ⟨hy, hmo, hd, hh, hmi, hs⟩ := h
  unfold baseName
  rw [hy, hmo, hd, hh, hmi, hs]

/-- The strftime-derived base name identifies a timestamp exactly up to its
second-precision fields: the microsecond part never reaches the name. -/
theorem baseName_eq (t1 t2 : Timestamp) (h1 : validTs t1) (h2 : validTs t2) :
    baseName t1 = baseName t2 ↔ sameSecond t1 t2 := by
  constructor
  · intro h
    have e1 : pyLt (baseName t1) (baseName t2) = false := by rw [h, pyLt_irrefl]
    have e2 : pyLt (baseName t2) (baseName t1) = false := by rw [h, pyLt_irrefl]
    rw [baseName_lt t1 t2 h1 h2, chronoLtSec_eq_key t1 t2 h1 h2,
      decide_eq_false_iff_not] at e1
    rw [baseName_lt t2 t1 h2 h1, chronoLtSec_eq_key t2 t1 h2 h1,
      decide_eq_false_iff_not] at e2
    rw [sameSecond_iff_key t1 t2 h1 h2]
    omega
  · exact baseName_congr t1 t2

/-! ## Probe (ping_ip, source lines 36-48) -/

/-- Outcome of the subprocess.check_output call inside ping_ip: either the
call raised (non-zero exit, tool missing, unreachable host) or it returned
textual output, given as a list of lines. -/
inductive ProbeExec where
  | err : ProbeExec
  | ok (lines : List (List Char)) : ProbeExec

/-- Characters matched by the character class of the regex time[=<]([\d\.]+). -/
def isTimeChar (c : Char) : Bool := c.isDigit || c = '.'

/-- Attempt of the regex time[=<]([\d\.]+) anchored at the start of cs:
some group-1 text when the pattern matches here, none otherwise. -/
def timeAt (cs : List Char) : Option (List Char) :=
  match cs with
  | 't' :: 'i' :: 'm' :: 'e' :: d :: rest =>
    if d = '=' || d = '<' then
      match rest.takeWhile isTimeChar with
      | [] => none
      | run => some run
    else none
  | _ => none

/-- re.search of time[=<]([\d\.]+) over one line: leftmost match wins. -/
def searchTime : List Char → Option (List Char)
  | [] => none
  | c :: rest =>
    match timeAt (c :: rest) with
    | some r => some r
    | none => searchTime rest

/-- Loop of ping_ip over the output lines: latency of the first line whose
search succeeds, none when every line fails to match (latency stays at the
sentinel, written N/A in the source). -/
def firstMatch : List (List Char) → Option (List Char)
  | [] => none
  | l :: ls =>
    match searchTime l with
    | some r => some r
    | none => firstMatch ls

inductive Status where
  | PASS : Status
  | FAIL : Status
deriving DecidableEq, Repr

/-- ping_ip: the try body runs the ping subprocess and parses its output;
the bare except arm returns FAIL with the N/A latency sentinel, embedded
here as none. -/
def ping_ip (exec : ProbeExec) : Status × Option (List Char) :=
  match exec with
  | ProbeExec.err => (Status.FAIL, none)
  | ProbeExec.ok lines => (Status.PASS, firstMatch lines)

/-! ## Provider resolver (get_isp, source lines 28-34) -/

/-- Outcome of requests.get(url, timeout=5).json() inside get_isp: err covers
every raising path (timeout, network error, non-JSON body); json carries the
decoded object as an association list of string fields. -/
inductive HttpResult where
  | err : HttpResult
  | json (fields : List (String × String)) : HttpResult

/-- get_isp: response.get with the Unknown default on the success path, the
Lookup Failed sentinel on the except path. -/
def get_isp (r : HttpResult) : String :=
  match r with
  | HttpResult.err => "Lookup Failed"
  | HttpResult.json fields =>
    match fields.lookup "isp" with
    | some v => v
    | none => "Unknown"

/-! ## Latency parsing and the high-latency test (source lines 82-88) -/

/-- Value of one decimal digit character. -/
def digitVal (c : Char) : Nat := c.toNat - 48

def digitsToNat (cs : List Char) : Nat :=
  cs.foldl (fun a c => a * 10 + digitVal c) 0

/-- Exact value of a digits-and-dots decimal string, as a scaled decimal:
the string denotes mantissa / 10 ^ scale. This is exact where binary float
rounding is only approximate, but the two semantics order every value the
ping regex can realistically produce identically against the integer
threshold. -/
def decimalVal (cs : List Char) : Nat × Nat :=
  let ipart := cs.takeWhile (fun c => c ≠ '.')
  let fpart := (cs.dropWhile (fun c => c ≠ '.')).drop 1
  (digitsToNat (ipart ++ fpart), fpart.length)

/-- Python float() applied to a string drawn from the character class
[\d\.]+: it succeeds exactly when the string has at most one dot and at
least one digit, and then denotes the obvious decimal value. Strings
outside that character class never reach this parse in the program. -/
def parseFloat? (cs : List Char) : Option (Nat × Nat) :=
  if cs.all isTimeChar && decide (cs.count '.' ≤ 1) && cs.any Char.isDigit then
    some (decimalVal cs)
  else
    none

/-- Source line 16. The source value is the integer 100. -/
def LATENCY_WARNING_THRESHOLD : Nat := 100

/-- Comparison float(latency) > LATENCY_WARNING_THRESHOLD on the parsed
scaled-decimal value v: v.1 / 10 ^ v.2 > 100, cleared of the denominator. -/
def gtThreshold (v : Nat × Nat) : Bool :=
  decide (LATENCY_WARNING_THRESHOLD * 10 ^ v.2 < v.1)

/-- Parsed latency value equal to the threshold exactly. -/
def eqThreshold (v : Nat × Nat) : Prop :=
  v.1 = LATENCY_WARNING_THRESHOLD * 10 ^ v.2

instance (v : Nat × Nat) : Decidable (eqThreshold v) := by
  unfold eqThreshold; infer_instance

/-- Latency branch of the report loop: skipped when the latency is the N/A
sentinel; otherwise float() is attempted and a ValueError is swallowed by
the inner bare except, so an unparseable latency string counts as not high. -/
def highLat (lat : Option (List Char)) : Bool :=
  match lat with
  | none => false
  | some cs =>
    match parseFloat? cs with
    | none => false
    | some q => gtThreshold q

/-! ## Run collection (generate_report, source lines 50-105) -/

/-- Per-endpoint external world for one run: the subprocess outcome for the
ping, the HTTP outcome for the provider lookup, and the wall clock reading
taken for the row timestamp. -/
structure ProbeEnv where
  ping : ProbeExec
  lookup : HttpResult
  now : Timestamp

/-- One row of the Ping Report sheet (source line 71). -/
structure RowR where
  ip : String
  isp : String
  status : Status
  latency : Option (List Char)
  ts : Timestamp
deriving DecidableEq

/-- Summary sheet contents (source lines 94-100). -/
structure Summary where
  total : Nat
  pass_count : Nat
  fail_count : Nat
  high_latency_count : Nat
  generated_at : Timestamp

/-- Everything one call of generate_report produces: the result rows, the
summary, the any_failure flag returned to the caller, and the file path the
workbook is saved under. -/
structure Report where
  rows : List RowR
  summary : Summary
  any_failure : Bool
  filename : List Nat

/-- Python str.strip(): drop whitespace from both ends. -/
def pyStrip (s : String) : String :=
  String.mk (((s.data.dropWhile Char.isWhitespace).reverse.dropWhile
    Char.isWhitespace).reverse)

/-- Body of the per-endpoint loop for one row, as it updates the counters
(pass, fail, high latency, any_failure) at source lines 74-88. -/
def reportStep (acc : Nat × Nat × Nat × Bool) (r : RowR) : Nat × Nat × Nat × Bool :=
  let p := acc.1
  let f := acc.2.1
  let h := acc.2.2.1
  let anyf := acc.2.2.2
  let p2 := if r.status = Status.PASS then p + 1 else p
  let f2 := if r.status = Status.PASS then f else f + 1
  let anyf2 := if r.status = Status.PASS then anyf else true
  let h2 := if highLat r.latency then h + 1 else h
  (p2, f2, h2, anyf2)

/-- Row built for one endpoint (source lines 67-71). -/
def mkRow (ip : String) (e : ProbeEnv) : RowR :=
  { ip := ip
  , isp := get_isp e.lookup
  , status := (ping_ip e.ping).1
  , latency := (ping_ip e.ping).2
  , ts := e.now }

/-- generate_report. fileLines are the lines of ip_list.txt; env gives the
external outcomes for the endpoint at each position of the stripped,
non-blank endpoint list; tGen is the wall clock reading for the summary row
Report Generated At (line 100) and tSave the one used to build the file
name (line 102). -/
def generate_report (fileLines : List String) (env : Nat → ProbeEnv)
    (tGen tSave : Timestamp) : Report :=
  let ip_list := (fileLines.map pyStrip).filter (fun s => s ≠ "")
  let rows := ip_list.enum.map (fun p => mkRow p.2 (env p.1))
  let t := rows.foldl reportStep (0, 0, 0, false)
  { rows := rows
  , summary :=
    { total := ip_list.length
    , pass_count := t.1
    , fail_count := t.2.1
    , high_latency_count := t.2.2.1
    , generated_at := tGen }
  , any_failure := t.2.2.2
  , filename := report_filename tSave }

/-! ## Counting lemmas for the report loop -/

theorem status_not_pass {s : Status} (h : ¬ s = Status.PASS) : s = Status.FAIL := by
  cases s
  · exact absurd rfl h
  · rfl

theorem reportFold : ∀ (rows : List RowR) (p f h : Nat) (b : Bool),
    rows.foldl reportStep (p, f, h, b) =
      (p + rows.countP (fun r => decide (r.status = Status.PASS)),
       f + rows.countP (fun r => decide (r.status = Status.FAIL)),
       h + rows.countP (fun r => highLat r.latency),
       b || rows.any (fun r => decide (r.status = Status.FAIL)))
  | [], p, f, h, b => by simp
  | r :: rs, p, f, h, b => by
    rw [List.foldl_cons]
    cases hst : r.status <;> cases hhl : highLat r.latency
    · have hstep : reportStep (p, f, h, b) r = (p + 1, f, h, b) := by
        simp [reportStep, hst, hhl]
      rw [hstep, reportFold rs]
      simp [List.countP_cons, hst, hhl]
      omega
    · have hstep : reportStep (p, f, h, b) r = (p + 1, f, h + 1, b) := by
        simp [reportStep, hst, hhl]
      rw [hstep, reportFold rs]
      simp [List.countP_cons, hst, hhl]
      omega
    · have hstep : reportStep (p, f, h, b) r = (p, f + 1, h, true) := by
        simp [reportStep, hst, hhl]
      rw [hstep, reportFold rs]
      simp [List.countP_cons, hst, hhl]
      omega
    · have hstep : reportStep (p, f, h, b) r = (p, f + 1, h + 1, true) := by
        simp [reportStep, hst, hhl]
      rw [hstep, reportFold rs]
      simp [List.countP_cons, hst, hhl]
      omega

theorem countP_pass_add_fail (rows : List RowR) :
    rows.countP (fun r => decide (r.status = Status.PASS)) +
      rows.countP (fun r => decide (r.status = Status.FAIL)) = rows.length := by
  induction rows with
  | nil => rfl
  | cons r rs ih =>
    cases hst : r.status <;> simp [List.countP_cons, hst] <;> omega

theorem ping_fail_latency (e : ProbeExec) :
    (ping_ip e).1 = Status.FAIL → (ping_ip e).2 = none := by
  cases e <;> simp [ping_ip]

theorem highLat_pass (e : ProbeExec) :
    highLat (ping_ip e).2 = true → (ping_ip e).1 = Status.PASS := by
  cases e <;> simp [ping_ip, highLat]

theorem mkRow_fail_latency (ip : String) (e : ProbeEnv) :
    (mkRow ip e).status = Status.FAIL → (mkRow ip e).latency = none := by
  unfold mkRow
  exact ping_fail_latency e.ping

theorem generate_report_rows (fileLines : List String) (env : Nat → ProbeEnv)
    (tGen tSave : Timestamp) :
    (generate_report fileLines env tGen tSave).rows =
      ((fileLines.map pyStrip).filter (fun s => s ≠ "")).enum.map
        (fun p => mkRow p.2 (env p.1)) := rfl

theorem highLat_eq_any (lat : Option (List Char)) :
    highLat lat = (lat.bind parseFloat?).any gtThreshold := by
  cases lat with
  | none => rfl
  | some cs =>
    unfold highLat
    cases hp : parseFloat? cs <;> simp [Option.bind, hp]

/-! ## Shared concrete fixtures used by witnesses -/

def T0 : Timestamp := ⟨2024, 5, 17, 12, 30, 45, 123456⟩

def pingOutPass : List (List Char) :=
  ["64 bytes from 8.8.8.8: icmp seq=1 ttl=117 time=123.5 ms".data]

def envDemo : Nat → ProbeEnv := fun i =>
  if i = 0 then
    { ping := ProbeExec.ok pingOutPass
    , lookup := HttpResult.json [("isp", "Google LLC")]
    , now := T0 }
  else
    { ping := ProbeExec.err, lookup := HttpResult.err, now := T0 }

def linesDemo : List String := ["8.8.8.8", "", "  1.1.1.1  "]

/-! ## C1 -/

/-- C1: for every run produced by one invocation of generate_report over an
endpoint list, the persisted summary satisfies
pass_count + fail_count = total = number of result rows, where total is the
number of stripped non-blank endpoint lines and the result rows carry
exactly one row per probed endpoint, in input order. -/
theorem run_counts_invariant (fileLines : List String) (env : Nat → ProbeEnv)
    (tGen tSave : Timestamp) :
    (generate_report fileLines env tGen tSave).summary.pass_count
        + (generate_report fileLines env tGen tSave).summary.fail_count
      = (generate_report fileLines env tGen tSave).summary.total
    ∧ (generate_report fileLines env tGen tSave).summary.total
      = (generate_report fileLines env tGen tSave).rows.length
    ∧ (generate_report fileLines env tGen tSave).rows.map RowR.ip
      = (fileLines.map pyStrip).filter (fun s => s ≠ "") := by
  unfold generate_report
  simp only [reportFold, Nat.zero_add]
  refine ⟨?_, ?_, ?_⟩
  · rw [countP_pass_add_fail]
    simp
  · simp
  · rw [List.map_map]
    have h : (RowR.ip ∘ fun p : Nat × String => mkRow p.2 (env p.1)) = Prod.snd := by
      funext p
      rfl
    rw [h]
    exact List.enumFrom_map_snd 0 _

/-! ## C2 -/

/-- C2: high_latency_count counts exactly the result rows whose latency
string is present and parses to a value strictly greater than the
threshold; a parsed value exactly equal to the threshold is never counted,
an absent latency is never counted, and a FAIL row is never counted. -/
theorem high_latency_strict (fileLines : List String) (env : Nat → ProbeEnv)
    (tGen tSave : Timestamp) :
    (generate_report fileLines env tGen tSave).summary.high_latency_count
      = (generate_report fileLines env tGen tSave).rows.countP
          (fun r => (r.latency.bind parseFloat?).any gtThreshold)
    ∧ (∀ lat v, lat.bind parseFloat? = some v → eqThreshold v →
        highLat lat = false)
    ∧ highLat none = false
    ∧ (∀ r ∈ (generate_report fileLines env tGen tSave).rows,
        r.status = Status.FAIL → highLat r.latency = false) := by
  refine ⟨?_, ?_, rfl, ?_⟩
  · unfold generate_report
    simp only [reportFold, Nat.zero_add]
    apply List.countP_congr
    intro r _
    rw [highLat_eq_any]
  · intro lat v hv ht
    rw [highLat_eq_any, hv]
    simp only [Option.any_some, gtThreshold]
    rw [decide_eq_false_iff_not]
    unfold eqThreshold at ht
    omega
  · intro r hr hfail
    rw [generate_report_rows] at hr
    obtain ⟨p, _, rfl⟩ := List.mem_map.1 hr
    rw [mkRow_fail_latency _ _ hfail]
    rfl

/-- Witness for C2 at a concrete run: a latency string equal to the
threshold is not counted, and the FAIL row of the demo run is not counted. -/
theorem high_latency_strict_witness :
    highLat (some ('1' :: '0' :: '0' :: [])) = false
    ∧ highLat (mkRow "1.1.1.1" (envDemo 1)).latency = false :=
  ⟨(high_latency_strict linesDemo envDemo T0 T0).2.1
      (some ('1' :: '0' :: '0' :: [])) (100, 0) (by decide) (by decide),
   (high_latency_strict linesDemo envDemo T0 T0).2.2.2
      (mkRow "1.1.1.1" (envDemo 1)) (by decide) (by decide)⟩

/-! ## C10 -/

/-- C10: for every run produced by generate_report,
high_latency_count is at most pass_count, because a FAIL row always carries
the absent-latency sentinel and so only PASS rows can pass the
high-latency test. -/
theorem high_latency_le_pass (fileLines : List String) (env : Nat → ProbeEnv)
    (tGen tSave : Timestamp) :
    (generate_report fileLines env tGen tSave).summary.high_latency_count
      ≤ (generate_report fileLines env tGen tSave).summary.pass_count := by
  unfold generate_report
  simp only [reportFold, Nat.zero_add]
  apply List.countP_mono_left
  intro r hr hhl
  obtain ⟨p, _, rfl⟩ := List.mem_map.1 hr
  simp only [decide_eq_true_eq]
  exact highLat_pass _ hhl

/-! ## C3 -/

/-- C3: the probe never raises: the erroring execution path yields FAIL with
absent latency, every FAIL result has absent latency, and a successful
execution whose output has no parsable timing yields PASS with absent
latency rather than a zero latency. -/
theorem ping_ip_fail_closed :
    ping_ip ProbeExec.err = (Status.FAIL, none)
    ∧ (∀ e, (ping_ip e).1 = Status.FAIL → (ping_ip e).2 = none)
    ∧ (∀ ls, firstMatch ls = none → ping_ip (ProbeExec.ok ls) = (Status.PASS, none)) := by
  refine ⟨rfl, ping_fail_latency, ?_⟩
  intro ls h
  simp [ping_ip, h]

/-- Witness for C3 at concrete probe executions: the erroring path and a
successful run whose output carries no timing. -/
theorem ping_ip_fail_closed_witness :
    ping_ip ProbeExec.err = (Status.FAIL, none)
    ∧ ping_ip (ProbeExec.ok ["Request timed out.".data]) = (Status.PASS, none) :=
  ⟨ping_ip_fail_closed.1,
   ping_ip_fail_closed.2.2 ["Request timed out.".data] (by decide)⟩

/-! ## C4 -/

/-- C4: the provider resolver never fails its caller: a successful lookup
returns the isp field of the response, the Unknown sentinel when the field
is absent, and any failing lookup returns the Lookup Failed sentinel. -/
theorem get_isp_fail_soft :
    get_isp HttpResult.err = "Lookup Failed"
    ∧ (∀ fields v, fields.lookup "isp" = some v →
        get_isp (HttpResult.json fields) = v)
    ∧ (∀ fields, fields.lookup "isp" = none →
        get_isp (HttpResult.json fields) = "Unknown") := by
  refine ⟨rfl, ?_, ?_⟩
  · intro fields v h
    simp [get_isp, h]
  · intro fields h
    simp [get_isp, h]

/-- Witness for C4 at concrete responses: a response carrying the field, and
a response lacking it. -/
theorem get_isp_fail_soft_witness :
    get_isp HttpResult.err = "Lookup Failed"
    ∧ get_isp (HttpResult.json [("isp", "Comcast")]) = "Comcast"
    ∧ get_isp (HttpResult.json [("status", "success")]) = "Unknown" :=
  ⟨get_isp_fail_soft.1,
   get_isp_fail_soft.2.1 [("isp", "Comcast")] "Comcast" rfl,
   get_isp_fail_soft.2.2 [("status", "success")] rfl⟩

/-! ## Report store: the folder listing (source line 122) -/

/-- Python str.endswith on code-point lists. -/
def endsWithCodes (suf l : List Nat) : Bool :=
  decide (l.drop (l.length - suf.length) = suf)

/-- Ordering used by sorted(..., reverse=True) over file paths: the left
path does not compare strictly below the right one. -/
def nameGe (a b : List Nat) : Prop := pyLt a b = false

instance : DecidableRel nameGe := fun a b => by
  unfold nameGe; infer_instance

instance : IsTotal (List Nat) nameGe := by
  constructor
  intro a b
  cases h : pyLt a b with
  | false => exact Or.inl h
  | true => exact Or.inr (pyLt_asymm a b h)

instance : IsTrans (List Nat) nameGe := by
  constructor
  intro a b c hab hbc
  unfold nameGe at *
  cases hac : pyLt a c with
  | false => rfl
  | true =>
    exfalso
    cases hba : pyLt b a with
    | true =>
      have h2 := pyLt_trans b a c hba hac
      rw [hbc] at h2
      simp at h2
    | false =>
      have he := pyLt_eq_of_not a b hab hba
      rw [he, hbc] at hac
      simp at hac

/-- Source line 122: take the folder entries, keep names ending in .xlsx,
join each with the folder name, and sort in reverse (descending) order. -/
def listReports (dir : List (List Nat)) : List (List Nat) :=
  List.insertionSort nameGe
    ((dir.filter (fun f => endsWithCodes (codes ".xlsx") f)).map
      (fun f => codes "ping_reports/" ++ f))

theorem listReports_sorted (dir : List (List Nat)) :
    (listReports dir).Sorted nameGe :=
  List.sorted_insertionSort nameGe _

theorem mem_listReports (dir : List (List Nat)) (f : List Nat)
    (h1 : f ∈ dir) (h2 : endsWithCodes (codes ".xlsx") f = true) :
    (codes "ping_reports/" ++ f) ∈ listReports dir := by
  unfold listReports
  rw [(List.perm_insertionSort nameGe _).mem_iff]
  exact List.mem_map_of_mem _ (List.mem_filter.2 ⟨h1, h2⟩)

theorem listReports_mem_iff (dir : List (List Nat)) (g : List Nat) :
    g ∈ listReports dir ↔
      ∃ f ∈ dir, endsWithCodes (codes ".xlsx") f = true ∧
        g = codes "ping_reports/" ++ f := by
  unfold listReports
  rw [(List.perm_insertionSort nameGe _).mem_iff, List.mem_map]
  constructor
  · rintro ⟨f, hf, rfl⟩
    obtain ⟨h1, h2⟩ := List.mem_filter.1 hf
    exact ⟨f, h1, h2, rfl⟩
  · rintro ⟨f, h1, h2, rfl⟩
    exact ⟨f, List.mem_filter.2 ⟨h1, h2⟩, rfl⟩

theorem endsWithCodes_append (l suf : List Nat) :
    endsWithCodes suf (l ++ suf) = true := by
  unfold endsWithCodes
  rw [decide_eq_true_eq]
  have h : (l ++ suf).length - suf.length = l.length := by
    simp [List.length_append]
  rw [h, List.drop_left]

theorem baseName_endsWith (t : Timestamp) :
    endsWithCodes (codes ".xlsx") (baseName t) = true := by
  unfold baseName
  exact endsWithCodes_append _ _

theorem sorted_head_max (L : List (List Nat)) (hs : L.Sorted nameGe)
    (x : List Nat) (hx : x ∈ L) (hmax : ∀ y ∈ L, y ≠ x → pyLt y x = true) :
    L.head? = some x := by
  cases L with
  | nil => cases hx
  | cons h t =>
    by_cases hhx : h = x
    · rw [hhx]; rfl
    · exfalso
      have h1 : pyLt h x = true := hmax h (List.mem_cons_self h t) hhx
      have h2 : nameGe h x := by
        rcases List.mem_cons.1 hx with hc | hc
        · exact absurd hc.symm hhx
        · exact (List.sorted_cons.1 hs).1 x hc
      unfold nameGe at h2
      rw [h1] at h2
      simp at h2

/-! ## C5 -/

def T5a : Timestamp := ⟨2024, 5, 17, 12, 30, 45, 0⟩

def T5b : Timestamp := ⟨2024, 5, 17, 12, 30, 45, 500000⟩

/-- C5 counterexample: two distinct run completion times in rapid
succession — the same wall-clock second, half a second apart — make
generate_report persist under the identical file path, because the identity
format keeps only whole seconds; the later save overwrites the earlier.
This falsifies the claim that rapid successive cycles always produce
distinct, non-colliding stored identities. -/
theorem save_identity_collision :
    T5a ≠ T5b
    ∧ (generate_report linesDemo envDemo T5a T5a).filename
      = (generate_report linesDemo envDemo T5b T5b).filename := by
  constructor
  · decide
  · rfl

/-- C5 amended: the stored identity is derived from created_at at
whole-second precision only (no sub-second part, no counter): two save
times produce the same file path exactly when they agree on all
second-precision fields, so cycles within one second collide and only
cycles in distinct seconds get distinct identities. -/
theorem save_identity_second_precision (t1 t2 : Timestamp)
    (h1 : validTs t1) (h2 : validTs t2) :
    report_filename t1 = report_filename t2 ↔ sameSecond t1 t2 := by
  unfold report_filename
  constructor
  · intro h
    exact (baseName_eq t1 t2 h1 h2).1 (List.append_cancel_left h)
  · intro h
    rw [baseName_congr t1 t2 h]

/-- Witness for the amended C5 at the two concrete collision timestamps. -/
theorem save_identity_second_precision_witness :
    report_filename T5a = report_filename T5b :=
  (save_identity_second_precision T5a T5b (by decide) (by decide)).2 (by decide)

/-! ## C6 -/

/-- C6 counterexample: the save writes directly to the final path (no
temporary name), and a folder holding only that file mid-write already
shows the identity in the listing: the path of the report saved at T5a is
a member of listReports of a directory that contains just its base name.
This falsifies the all-or-nothing persistence claim. -/
theorem partial_save_visible :
    report_filename T5a = codes "ping_reports/" ++ baseName T5a
    ∧ report_filename T5a ∈ listReports [baseName T5a] := by
  constructor
  · rfl
  · rw [report_filename]
    exact mem_listReports _ _ (List.mem_singleton.2 rfl) (baseName_endsWith T5a)

/-- C6 amended: the save is not atomic: it writes directly to the final
.xlsx path, and the listing shows every entry of the folder that ends in
.xlsx — including a partially-written report file — so a save that fails
partway can leave its identity visible to list(). -/
theorem any_xlsx_visible (dir : List (List Nat)) (f : List Nat)
    (h1 : f ∈ dir) (h2 : endsWithCodes (codes ".xlsx") f = true) :
    (codes "ping_reports/" ++ f) ∈ listReports dir :=
  mem_listReports dir f h1 h2

/-- Witness for the amended C6 at a concrete one-file folder. -/
theorem any_xlsx_visible_witness :
    (codes "ping_reports/" ++ baseName T0) ∈ listReports [baseName T0] :=
  any_xlsx_visible [baseName T0] (baseName T0) (List.mem_singleton.2 rfl)
    (baseName_endsWith T0)

/-! ## C7 -/

def T7 : Timestamp := ⟨2024, 5, 17, 12, 30, 46, 0⟩

/-- C7: for a stored set of runs the listing is sorted most-recent-first
(descending in the path order), immediately after saving a run that is
chronologically after every stored one its path is at the front of the
listing, and the path order coincides with chronological order of the
underlying timestamps — lexical sort of file names equals chronological
order of creation. -/
theorem list_most_recent_first (ts : List Timestamp) (tNew : Timestamp)
    (hv : ∀ t ∈ ts, validTs t) (hvN : validTs tNew)
    (hgt : ∀ t ∈ ts, chronoLtSec t tNew = true) :
    (listReports ((tNew :: ts).map baseName)).Sorted nameGe
    ∧ (listReports ((tNew :: ts).map baseName)).head?
      = some (codes "ping_reports/" ++ baseName tNew)
    ∧ (∀ t1 t2, validTs t1 → validTs t2 →
        pyLt (baseName t1) (baseName t2) = chronoLtSec t1 t2) := by
  refine ⟨listReports_sorted _, ?_, fun t1 t2 h1 h2 => baseName_lt t1 t2 h1 h2⟩
  apply sorted_head_max _ (listReports_sorted _)
  · exact mem_listReports _ _
      (List.mem_map_of_mem baseName (List.mem_cons_self tNew ts))
      (baseName_endsWith tNew)
  · intro y hy hne
    obtain ⟨f, hf, _, rfl⟩ := (listReports_mem_iff _ y).1 hy
    obtain ⟨t, htm, rfl⟩ := List.mem_map.1 hf
    rcases List.mem_cons.1 htm with hc | hc
    · subst hc
      exact absurd rfl hne
    · rw [pyLt_append_left, baseName_lt t tNew (hv t hc) hvN]
      exact hgt t hc

/-- Witness for C7 at a concrete store: one stored run at T0 and a newly
saved run one second later at T7. -/
theorem list_most_recent_first_witness :
    (listReports ([T7, T0].map baseName)).head?
      = some (codes "ping_reports/" ++ baseName T7) :=
  (list_most_recent_first [T0] T7 (by decide) (by decide) (by decide)).2.1

/-! ## History aggregation (history_frames, source lines 187-201) -/

/-- Content the history loop reads from one persisted report file: the
Ping Report sheet rows and the Report Generated At timestamp parsed from
the Summary sheet. -/
structure Workbook where
  report : List RowR
  genAt : Timestamp
deriving DecidableEq

/-- Ascending provider-name order used by the pandas groupby over the
result sheet. -/
def strLe (a b : String) : Prop := pyLt (codes b) (codes a) = false

instance : DecidableRel strLe := fun a b => by
  unfold strLe; infer_instance

/-- Labels of a pandas index: the result frame read from the sheet carries
an integer range index, while the grouped frame is indexed by provider-name
strings; column assignment aligns values by comparing these labels. -/
inductive PLabel where
  | int (n : Nat) : PLabel
  | str (s : String) : PLabel
deriving DecidableEq

/-- Value of the lambda at source line 196 on one latency cell: 0 for the
N/A sentinel, 1 or 0 for a parsed value strictly above or not above the
threshold, and none when float() raises — which aborts the apply and makes
the outer except skip the whole file. -/
def floatFlag? (lat : Option (List Char)) : Option Nat :=
  match lat with
  | none => some 0
  | some cs =>
    match parseFloat? cs with
    | none => none
    | some v => some (if gtThreshold v then 1 else 0)

/-- Series built by the apply at source lines 195-197: one 0/1 flag per
result row, carried on the integer range index of the result frame; none
when some row makes the lambda raise. -/
def seriesOf : List (Nat × RowR) → Option (List (PLabel × Nat))
  | [] => some []
  | (i, r) :: rest =>
    match floatFlag? r.latency with
    | none => none
    | some v =>
      match seriesOf rest with
      | none => none
      | some s => some ((PLabel.int i, v) :: s)

def highLatSeries? (rows : List RowR) : Option (List (PLabel × Nat)) :=
  seriesOf rows.enum

/-- Per-provider pass and fail counts of one result sheet, keyed by the
distinct provider names in ascending order (the groupby-size-unstack at
source line 194), each together with the High Latency cell the assignment
at source lines 195-197 produces for that provider row: pandas aligns the
integer-indexed series against the provider-name index, so the cell is the
series entry whose label equals the provider name — none (NaN) whenever no
integer label matches the string label. -/
def groupRows (rows : List RowR) (series : List (PLabel × Nat)) :
    List (String × Nat × Nat × Option Nat) :=
  (List.insertionSort strLe (rows.map (fun r => r.isp)).dedup).map
    (fun i =>
      (i,
       rows.countP (fun r => decide (r.isp = i) && decide (r.status = Status.PASS)),
       rows.countP (fun r => decide (r.isp = i) && decide (r.status = Status.FAIL)),
       series.lookup (PLabel.str i)))

/-- One point of the historical series, one per stored run the loop
processes to completion: the timestamp parsed from the Summary sheet and
the per-provider frame built from the result sheet. -/
structure HistPoint where
  timestamp : Timestamp
  groups : List (String × Nat × Nat × Option Nat)
deriving DecidableEq

/-- Processing of one readable workbook inside the try body: none when the
High Latency apply raises, some point otherwise. -/
def mkPoint? (wb : Workbook) : Option HistPoint :=
  match highLatSeries? wb.report with
  | none => none
  | some series =>
    some { timestamp := wb.genAt, groups := groupRows wb.report series }

/-- History loop: iterate the reverse of the descending listing, append one
point per file whose read (env, none for a corrupt or unreadable file) and
processing (mkPoint?) both succeed, and skip the file otherwise — the
try/except at source lines 188-201. -/
def history_frames (env : List Nat → Option Workbook)
    (files : List (List Nat)) : List HistPoint :=
  files.reverse.foldl
    (fun acc f =>
      match (env f).bind mkPoint? with
      | some pt => acc ++ [pt]
      | none => acc) []

theorem history_foldl (env : List Nat → Option Workbook) :
    ∀ (L : List (List Nat)) (acc : List HistPoint),
      L.foldl
        (fun acc f =>
          match (env f).bind mkPoint? with
          | some pt => acc ++ [pt]
          | none => acc) acc
        = acc ++ L.filterMap (fun f => (env f).bind mkPoint?)
  | [], acc => by simp
  | f :: L, acc => by
    rw [List.foldl_cons]
    cases h : (env f).bind mkPoint? with
    | none =>
      simp only [h]
      rw [history_foldl env L acc, List.filterMap_cons]
      simp [h]
    | some pt =>
      simp only [h]
      rw [history_foldl env L (acc ++ [pt]), List.filterMap_cons]
      simp [h]

theorem seriesOf_int_keys :
    ∀ (L : List (Nat × RowR)) (series : List (PLabel × Nat)),
      seriesOf L = some series → ∀ p ∈ series, ∃ n, p.1 = PLabel.int n
  | [], series, h => by
    obtain rfl := Option.some.inj h
    intro p hp
    cases hp
  | (i, r) :: rest, series, h => by
    simp only [seriesOf] at h
    cases hf : floatFlag? r.latency with
    | none =>
      rw [hf] at h
      exact Option.noConfusion h
    | some v =>
      rw [hf] at h
      cases hs : seriesOf rest with
      | none =>
        rw [hs] at h
        exact Option.noConfusion h
      | some s =>
        rw [hs] at h
        obtain rfl := Option.some.inj h
        intro p hp
        rcases List.mem_cons.1 hp with hc | hc
        · exact ⟨i, by rw [hc]⟩
        · exact seriesOf_int_keys rest s hs p hc

theorem lookup_str_none :
    ∀ (series : List (PLabel × Nat)),
      (∀ p ∈ series, ∃ n, p.1 = PLabel.int n) →
      ∀ s : String, series.lookup (PLabel.str s) = none
  | [], _, _ => rfl
  | (k, v) :: rest, h, s => by
    obtain ⟨n, hk⟩ := h (k, v) (List.mem_cons_self _ _)
    simp only at hk
    subst hk
    have hne : (PLabel.str s == PLabel.int n) = false := by
      simp
    simp only [List.lookup, hne]
    exact lookup_str_none rest (fun p hp => h p (List.mem_cons_of_mem _ hp)) s

/-- The two facts one readable point always satisfies: its timestamp is the
one parsed from the Summary sheet, and its High Latency cells are all void
by index misalignment. -/
theorem mkPoint?_spec (wb : Workbook) (pt : HistPoint)
    (h : mkPoint? wb = some pt) :
    pt.timestamp = wb.genAt ∧ ∀ g ∈ pt.groups, g.2.2.2 = none := by
  unfold mkPoint? at h
  cases hs : highLatSeries? wb.report with
  | none =>
    rw [hs] at h
    exact Option.noConfusion h
  | some series =>
    rw [hs] at h
    obtain rfl := Option.some.inj h
    refine ⟨rfl, ?_⟩
    intro g hg
    unfold groupRows at hg
    obtain ⟨i, _, rfl⟩ := List.mem_map.1 hg
    exact lookup_str_none series (seriesOf_int_keys _ _ hs) i

theorem pairwise_filterMap_of {α β : Type} (f : α → Option β)
    {R : α → α → Prop} {S : β → β → Prop}
    (hf : ∀ a b x y, R a b → f a = some x → f b = some y → S x y) :
    ∀ l : List α, l.Pairwise R → (l.filterMap f).Pairwise S
  | [], _ => by simp
  | a :: l, h => by
    obtain ⟨hr, htail⟩ := List.pairwise_cons.1 h
    rw [List.filterMap_cons]
    cases hfa : f a with
    | none => exact pairwise_filterMap_of f hf l htail
    | some x =>
      refine List.Pairwise.cons ?_ (pairwise_filterMap_of f hf l htail)
      intro y hy
      obtain ⟨b, hb, hfb⟩ := List.mem_filterMap.1 hy
      exact hf a b x y (hr b hb) hfa hfb

/-! ## C8 -/

def TgA : Timestamp := ⟨2024, 5, 17, 12, 0, 5, 0⟩

def TsA : Timestamp := ⟨2024, 5, 17, 12, 0, 10, 0⟩

def TgB : Timestamp := ⟨2024, 5, 17, 12, 0, 7, 0⟩

def TsB : Timestamp := ⟨2024, 5, 17, 12, 0, 8, 0⟩

def wbRunA : Workbook := { report := [], genAt := TgA }

def wbRunB : Workbook := { report := [], genAt := TgB }

def dirX : List (List Nat) := [baseName TsA, baseName TsB]

def envX : List Nat → Option Workbook := fun f =>
  if f = codes "ping_reports/" ++ baseName TsA then some wbRunA
  else if f = codes "ping_reports/" ++ baseName TsB then some wbRunB
  else none

def rowP : RowR :=
  { ip := "10.0.0.1", isp := "Alpha Net", status := Status.PASS
  , latency := none, ts := T0 }

def rowQ : RowR :=
  { ip := "10.0.0.1", isp := "Beta Net", status := Status.PASS
  , latency := none, ts := T0 }

def wbP : Workbook := { report := [rowP], genAt := T0 }

def wbQ : Workbook := { report := [rowQ], genAt := T0 }

/-- C8 counterexample: the claim fails on the code in two ways. First,
points are not sorted ascending by created_at: run A stamps its Summary at
TgA and saves at TsA, a concurrently started run B stamps at TgB and saves
at TsB with TgA before TgB but TsB before TsA; the history over their two
stored files comes out in file-name order, with Summary timestamps
TgB before TgA — descending. Second, points are not built from each run
Summary: two runs with identical Summary data (same timestamp and the same
total, pass and fail counts) yield different history points, because the
point content is re-grouped from the result sheet. -/
theorem history_not_summary_points :
    chronoLtSec TgA TsA = true
    ∧ chronoLtSec TgB TsB = true
    ∧ (generate_report [] envDemo TgA TsA).summary.generated_at = TgA
    ∧ (generate_report [] envDemo TgA TsA).filename
      = codes "ping_reports/" ++ baseName TsA
    ∧ (generate_report [] envDemo TgB TsB).summary.generated_at = TgB
    ∧ (generate_report [] envDemo TgB TsB).filename
      = codes "ping_reports/" ++ baseName TsB
    ∧ (history_frames envX (listReports dirX)).map HistPoint.timestamp
      = [TgB, TgA]
    ∧ chronoLeSec TgB TgA = false
    ∧ wbP.genAt = wbQ.genAt
    ∧ wbP.report.length = wbQ.report.length
    ∧ wbP.report.countP (fun r => decide (r.status = Status.PASS))
      = wbQ.report.countP (fun r => decide (r.status = Status.PASS))
    ∧ wbP.report.countP (fun r => decide (r.status = Status.FAIL))
      = wbQ.report.countP (fun r => decide (r.status = Status.FAIL))
    ∧ mkPoint? wbP ≠ mkPoint? wbQ := by
  refine ⟨by decide, by decide, rfl, rfl, rfl, rfl, by decide, by decide,
    rfl, rfl, rfl, rfl, by decide⟩

/-- C8 amended: the history series holds exactly one point per stored run
whose record reads back and processes without error — a failing record is
skipped without aborting the rest — in the reverse of the descending
listing order, that is, ascending file-name (save-time) order; each point
is built from the result sheet of its run (per-provider pass and fail
counts, plus a High Latency column that is always void because the
integer-indexed series does not align with the provider-name index), with
only the timestamp taken from the Summary sheet; and the points ascend by
that Summary timestamp when every readable file is named from the
timestamp its Summary carries, as with sequential cycles — not in general
for interleaved cycles. -/
theorem history_structure (dir : List (List Nat)) (env : List Nat → Option Workbook) :
    history_frames env (listReports dir)
      = (listReports dir).reverse.filterMap (fun f => (env f).bind mkPoint?)
    ∧ ((listReports dir).reverse).Pairwise (fun a b => nameGe b a)
    ∧ (∀ wb pt, mkPoint? wb = some pt →
        pt.timestamp = wb.genAt ∧ ∀ g ∈ pt.groups, g.2.2.2 = none)
    ∧ ((∀ f wb, env f = some wb →
          validTs wb.genAt ∧ f = codes "ping_reports/" ++ baseName wb.genAt) →
        (history_frames env (listReports dir)).Pairwise
          (fun p q => chronoLeSec p.timestamp q.timestamp = true)) := by
  have he : history_frames env (listReports dir)
      = (listReports dir).reverse.filterMap (fun f => (env f).bind mkPoint?) := by
    unfold history_frames
    rw [history_foldl]
    simp
  have hrev : ((listReports dir).reverse).Pairwise (fun a b => nameGe b a) :=
    List.pairwise_reverse.2 (listReports_sorted dir)
  refine ⟨he, hrev, mkPoint?_spec, ?_⟩
  intro hname
  rw [he]
  apply pairwise_filterMap_of _ ?_ _ hrev
  intro a b x y hR hfa hfb
  obtain ⟨wa, hwa, hma⟩ := Option.bind_eq_some.1 hfa
  obtain ⟨wb, hwb, hmb⟩ := Option.bind_eq_some.1 hfb
  obtain ⟨hva, hea⟩ := hname a wa hwa
  obtain ⟨hvb, heb⟩ := hname b wb hwb
  subst hea
  subst heb
  unfold nameGe at hR
  rw [pyLt_append_left, baseName_lt _ _ hvb hva] at hR
  rw [(mkPoint?_spec wa x hma).1, (mkPoint?_spec wb y hmb).1]
  simp [chronoLeSec, hR]

def wbA : Workbook := { report := [], genAt := T0 }

def envH : List Nat → Option Workbook := fun f =>
  if f = codes "ping_reports/" ++ baseName T0 then some wbA else none

/-- Witness for the amended C8 at a concrete store: a name-consistent store
with one readable run at T0 and one junk entry whose read fails and is
skipped gives an ascending history, and the point of the readable run
carries the Summary timestamp with a void High Latency cell set. -/
theorem history_structure_witness :
    (history_frames envH (listReports [baseName T0, codes "junk.xlsx"])).Pairwise
        (fun p q => chronoLeSec p.timestamp q.timestamp = true)
    ∧ ((⟨T0, []⟩ : HistPoint).timestamp = wbA.genAt
       ∧ ∀ g ∈ (⟨T0, []⟩ : HistPoint).groups, g.2.2.2 = none) :=
  ⟨(history_structure [baseName T0, codes "junk.xlsx"] envH).2.2.2 (by
      intro f wb h
      unfold envH at h
      split at h
      next hf =>
        injection h with h2
        subst h2
        exact ⟨by decide, hf⟩
      next =>
        simp at h),
   (history_structure [] envH).2.2.1 wbA ⟨T0, []⟩ rfl⟩

/-! ## Loading the latest stored run (source lines 128-133) -/

/-- Sheets of one persisted workbook as the dashboard loader sees them:
none marks a sheet whose read raises (sheet missing or file unreadable). -/
structure FileSheets where
  pingReport : Option (List RowR)
  summarySheet : Option (List (String × Int))
deriving DecidableEq

/-- Loader of a stored report: both sheet reads must succeed, otherwise the
exception is surfaced (st.error followed by st.stop) and no data is
returned; embedded as an Except value. -/
def load_latest (fs : FileSheets) :
    Except Unit (List RowR × List (String × Int)) :=
  match fs.pingReport, fs.summarySheet with
  | some df, some s => Except.ok (df, s)
  | _, _ => Except.error ()

/-- Modelled from the spec: summary totals consistent with the result
table, the re-validation the spec requires the loader to perform on read.
The total, pass and fail metrics must equal the corresponding counts over
the result table. -/
def specSummaryConsistent (rows : List RowR) (s : List (String × Int)) : Prop :=
  s.lookup "Total IPs Checked" = some (rows.length : Int)
  ∧ s.lookup "Total PASS"
    = some ((rows.countP (fun r => decide (r.status = Status.PASS)) : Nat) : Int)
  ∧ s.lookup "Total FAIL"
    = some ((rows.countP (fun r => decide (r.status = Status.FAIL)) : Nat) : Int)

instance (rows : List RowR) (s : List (String × Int)) :
    Decidable (specSummaryConsistent rows s) := by
  unfold specSummaryConsistent; infer_instance

def fsBad : FileSheets :=
  { pingReport := some []
  , summarySheet :=
      some [("Total IPs Checked", 5), ("Total PASS", 5), ("Total FAIL", 0)] }

/-! ## C9 -/

/-- C9 counterexample: a persisted structure whose summary claims five
passing endpoints over an empty result table loads successfully — the
loader performs no totals re-validation — refuting the claim that
inconsistent summary totals fail the load. -/
theorem load_inconsistent_ok :
    load_latest fsBad
      = Except.ok
          ([], [("Total IPs Checked", 5), ("Total PASS", 5), ("Total FAIL", 0)])
    ∧ ¬ specSummaryConsistent []
        [("Total IPs Checked", 5), ("Total PASS", 5), ("Total FAIL", 0)] := by
  constructor
  · rfl
  · decide

/-- C9 amended: loading a stored run fails — surfacing the error rather
than fabricating data — exactly when the persisted structure is missing
either the result sheet or the summary sheet; summary totals are not
re-validated against the result table on read. -/
theorem load_latest_missing_sheet (fs : FileSheets) :
    (load_latest fs = Except.error ()
      ↔ fs.pingReport = none ∨ fs.summarySheet = none)
    ∧ (∀ r s, load_latest fs = Except.ok (r, s) →
        fs.pingReport = some r ∧ fs.summarySheet = some s) := by
  cases hp : fs.pingReport <;> cases hs : fs.summarySheet <;>
    simp [load_latest, hp, hs]

/-- Witness for the amended C9: a file missing its result sheet fails to
load, and a complete file loads back exactly its stored sheets. -/
theorem load_latest_missing_sheet_witness :
    load_latest { pingReport := none, summarySheet := some [] } = Except.error ()
    ∧ (({ pingReport := some [], summarySheet := some [] } : FileSheets).pingReport
          = some []
       ∧ ({ pingReport := some [], summarySheet := some [] } : FileSheets).summarySheet
          = some []) :=
  ⟨(load_latest_missing_sheet _).1.2 (Or.inl rfl),
   (load_latest_missing_sheet _).2 [] [] rfl⟩
